import Mathlib

/-!
Shallow embedding of the mesh-sampling module
(source/blender/blenkernel/intern/mesh_sample.c) and of the ADMM-PD
solver configuration type (extern/softbody/src/admmpd_types.h).

Scalar values computed by the C code in float arithmetic are modelled
exactly over the rationals; the single irrational operation
(vector normalization, which divides by a square root) is modelled over
the reals.  Machine integers that stay small and non-negative are
modelled as naturals, C `int` values as integers.
-/

/-- A 3-vector of rationals (models a C float[3] under exact arithmetic). -/
abbrev QV3 : Type := ℚ × ℚ × ℚ

/-- A 3-vector of reals, used for the result of vector normalization. -/
abbrev RV3 : Type := ℝ × ℝ × ℝ

/-- Coercion of a rational 3-vector into the reals. -/
def q3r (v : QV3) : RV3 := ((v.1 : ℝ), (v.2.1 : ℝ), (v.2.2 : ℝ))

/-- Componentwise sum of two rational 3-vectors (models add_v3_v3). -/
def add3 (a b : QV3) : QV3 := (a.1 + b.1, a.2.1 + b.2.1, a.2.2 + b.2.2)

/-- Scaling of a rational 3-vector (models mul_v3_fl applied to a copy). -/
def smul3 (c : ℚ) (v : QV3) : QV3 := (c * v.1, c * v.2.1, c * v.2.2)

/-- Models BLI_math's madd_v3_v3fl: r := r + v * f, componentwise. -/
def madd_v3_v3fl (r v : QV3) (f : ℚ) : QV3 :=
  (r.1 + v.1 * f, r.2.1 + v.2.1 * f, r.2.2 + v.2.2 * f)

/-- Dot product of two real 3-vectors (models dot_v3v3). -/
def dot3r (a b : RV3) : ℝ := a.1 * b.1 + a.2.1 * b.2.1 + a.2.2 * b.2.2

/-- Dot product of two rational 3-vectors (models dot_v3v3 exactly). -/
def dot3q (a b : QV3) : ℚ := a.1 * b.1 + a.2.1 * b.2.1 + a.2.2 * b.2.2

/-- Models BLI_math's normalize_v3: if the squared length exceeds 1.0e-35
the vector is scaled by the reciprocal of its length, otherwise it is
zeroed. -/
noncomputable def normalize_v3 (v : RV3) : RV3 :=
  let d := dot3r v v
  if d > 1 / 10 ^ 35 then
    ((Real.sqrt d)⁻¹ * v.1, (Real.sqrt d)⁻¹ * v.2.1, (Real.sqrt d)⁻¹ * v.2.2)
  else
    ((0 : ℝ), (0 : ℝ), (0 : ℝ))

/-- Models DNA_meshdata_types' MVert: a vertex with a float[3] coordinate
and a short[3] encoded normal. -/
structure MVert where
  co : QV3
  no : Int × Int × Int
  deriving DecidableEq

/-- Default vertex used for (never taken) out-of-bounds array reads. -/
def mvertDefault : MVert := ⟨(0, 0, 0), (0, 0, 0)⟩

/-- Models DNA_meshdata_types' MFace: a tessellated face with four vertex
indices; v4 = 0 marks a triangle. -/
structure MFace where
  v1 : Nat
  v2 : Nat
  v3 : Nat
  v4 : Nat
  deriving DecidableEq

/-- Default face used for (never taken) out-of-bounds array reads. -/
def mfaceDefault : MFace := ⟨0, 0, 0, 0⟩

/-- Models the relevant view of DerivedMesh: its vertex array
(getVertArray/getNumVerts) and its tessellated face array
(getTessFaceArray/getNumTessFaces). -/
structure DerivedMesh where
  verts : List MVert
  tessfaces : List MFace

/-- Models BKE_mesh_sample.h's MSurfaceSample: three owning vertex
indices (unsigned int[3]) and three barycentric weights (float[3]). -/
structure MSurfaceSample where
  orig_verts : Nat × Nat × Nat
  orig_weights : QV3
  deriving DecidableEq

/-- Default sample value (the C code zero-initializes samples). -/
def sampleDefault : MSurfaceSample := ⟨(0, 0, 0), (0, 0, 0)⟩

/-- The j-th owning vertex index of a sample (C sample->orig_verts[j]). -/
def MSurfaceSample.vertIdx (s : MSurfaceSample) : Fin 3 → Nat
  | 0 => s.orig_verts.1
  | 1 => s.orig_verts.2.1
  | 2 => s.orig_verts.2.2

/-- The j-th barycentric weight of a sample (C sample->orig_weights[j]). -/
def MSurfaceSample.wgt (s : MSurfaceSample) : Fin 3 → ℚ
  | 0 => s.orig_weights.1
  | 1 => s.orig_weights.2.1
  | 2 => s.orig_weights.2.2

/-- Models BLI_math's normal_short_to_float_v3: each short component is
multiplied by 1.0f/32767.0f. -/
def normal_short_to_float (n : Int × Int × Int) : QV3 :=
  ((n.1 : ℚ) * (1 / 32767), (n.2.1 : ℚ) * (1 / 32767), (n.2.2 : ℚ) * (1 / 32767))

/-- The rational part of BKE_mesh_sample_eval: the bound check on the three
vertex indices and the two madd_v3_v3fl accumulation chains; none when any
index is out of range, otherwise the accumulated location and the
accumulated (not yet normalized) normal. -/
def BKE_mesh_sample_eval_core (dm : DerivedMesh) (s : MSurfaceSample) :
    Option (QV3 × QV3) :=
  let totverts := dm.verts.length
  if s.orig_verts.1 ≥ totverts ∨ s.orig_verts.2.1 ≥ totverts ∨
      s.orig_verts.2.2 ≥ totverts then
    none
  else
    let v1 := dm.verts.getD s.orig_verts.1 mvertDefault
    let v2 := dm.verts.getD s.orig_verts.2.1 mvertDefault
    let v3 := dm.verts.getD s.orig_verts.2.2 mvertDefault
    let loc := madd_v3_v3fl (madd_v3_v3fl (madd_v3_v3fl (0, 0, 0)
      v1.co s.orig_weights.1) v2.co s.orig_weights.2.1) v3.co s.orig_weights.2.2
    let nor := madd_v3_v3fl (madd_v3_v3fl (madd_v3_v3fl (0, 0, 0)
      (normal_short_to_float v1.no) s.orig_weights.1)
      (normal_short_to_float v2.no) s.orig_weights.2.1)
      (normal_short_to_float v3.no) s.orig_weights.2.2
    some (loc, nor)

/-- Models BKE_mesh_sample_eval: zeroes both outputs, fails when any of the
three owning vertex indices is out of range, otherwise accumulates the
weighted vertex locations into loc and the weighted decoded vertex normals
into nor and finally normalizes nor. -/
noncomputable def BKE_mesh_sample_eval (dm : DerivedMesh) (s : MSurfaceSample) :
    Bool × QV3 × RV3 :=
  match BKE_mesh_sample_eval_core dm s with
  | none => (false, (0, 0, 0), ((0 : ℝ), (0 : ℝ), (0 : ℝ)))
  | some (loc, nor) => (true, loc, normalize_v3 (q3r nor))

/-- Spec-side formula: the weighted sum of the three owning vertices'
positions, written exactly as the spec phrases it. -/
def sample_weighted_loc (dm : DerivedMesh) (s : MSurfaceSample) : QV3 :=
  add3 (add3 (smul3 s.orig_weights.1 (dm.verts.getD s.orig_verts.1 mvertDefault).co)
    (smul3 s.orig_weights.2.1 (dm.verts.getD s.orig_verts.2.1 mvertDefault).co))
    (smul3 s.orig_weights.2.2 (dm.verts.getD s.orig_verts.2.2 mvertDefault).co)

/-- Spec-side formula: the weighted sum of the three owning vertices'
normals (decoded from their short encoding). -/
def sample_weighted_nor (dm : DerivedMesh) (s : MSurfaceSample) : QV3 :=
  add3 (add3 (smul3 s.orig_weights.1
      (normal_short_to_float (dm.verts.getD s.orig_verts.1 mvertDefault).no))
    (smul3 s.orig_weights.2.1
      (normal_short_to_float (dm.verts.getD s.orig_verts.2.1 mvertDefault).no)))
    (smul3 s.orig_weights.2.2
      (normal_short_to_float (dm.verts.getD s.orig_verts.2.2 mvertDefault).no))

/-- Models admmpd_types.h's Options struct (doubles as exact rationals). -/
structure Options where
  timestep_s : ℚ
  max_admm_iters : Int
  max_cg_iters : Int
  max_gs_iters : Int
  mult_k : ℚ
  min_res : ℚ
  youngs : ℚ
  poisson : ℚ
  grav : QV3

/-- Models the Options default constructor: timestep 1/24 s, 50 ADMM
iterations, 10 CG iterations, 30 GS iterations, mult_k 1, min_res 1e-6,
youngs 1e6, poisson 0.299, gravity (0, 0, -9.8). -/
def Options.defaultCtor : Options :=
  ⟨1 / 24, 50, 10, 30, 1, 1 / 1000000, 1000000, 299 / 1000, (0, 0, -(49 / 5))⟩

/-- Modelled from the spec: BLI_rand.c is not under src/.  The spec only
requires a deterministic pseudo-random generator addressed by a seed
(generate_random(mesh, seed, count)); we model BLI_rng as a 48-bit
linear-congruential generator state seeded from the given seed. -/
def rng_seed (seed : Nat) : Nat := (seed * 65536 + 0x330E) % 2 ^ 48

/-- Modelled from the spec: one step of the deterministic BLI_rng stream
(BLI_rand.c is not under src/); the state transition of the 48-bit LCG. -/
def rng_step (x : Nat) : Nat := (0x5DEECE66D * x + 0xB) % 2 ^ 48

/-- Modelled from the spec: BLI_rng_get_int (BLI_rand.c is not under src/);
advances the stream and yields a non-negative int below 2^31. -/
def rng_int (x : Nat) : Nat × Nat := (rng_step x / 2 ^ 17, rng_step x)

/-- Modelled from the spec: BLI_rng_get_float (BLI_rand.c is not under
src/); advances the stream and yields a rational in [0, 1). -/
def rng_float (x : Nat) : ℚ × Nat :=
  (((rng_step x / 2 ^ 17 : Nat) : ℚ) / 2 ^ 31, rng_step x)

/-- Models BKE_mesh_sample.h's MSurfaceSampleStorage generically: a
capacity and a store callback taking the data, the capacity, the sample
index and the sample, and returning the updated data and a success flag. -/
structure MSurfaceSampleStorage (σ : Type) where
  capacity : Int
  store_sample : σ → Int → Int → MSurfaceSample → σ × Bool

/-- Models mesh_sample_store_array_sample: fails when index >= capacity,
otherwise writes the sample at the index. -/
def mesh_sample_store_array_sample (data : List MSurfaceSample)
    (capacity index : Int) (sample : MSurfaceSample) :
    List MSurfaceSample × Bool :=
  if index ≥ capacity then (data, false)
  else (data.set index.toNat sample, true)

/-- Models BKE_mesh_sample_storage_array: array storage of a capacity. -/
def BKE_mesh_sample_storage_array (capacity : Int) :
    MSurfaceSampleStorage (List MSurfaceSample) :=
  ⟨capacity, mesh_sample_store_array_sample⟩

/-- The barycentric weight triple built by BKE_mesh_sample_generate_random
from two generated values a and b: (a, b) is reflected to (1-a, 1-b) when
a + b > 1, and the weights are (1-(a+b), a, b). -/
def sample_weights_ab (a b : ℚ) : QV3 :=
  let p := if a + b > 1 then (1 - a, 1 - b) else (a, b)
  (1 - (p.1 + p.2), p.1, p.2)

/-- One loop iteration body of BKE_mesh_sample_generate_random without the
store call: picks a face by a random index modulo totfaces, for a quad
draws one more random int to choose one of its two triangles (the short
circuit on v4 means no draw happens for a triangle), draws the two floats
a and b, and builds the sample; returns it with the advanced rng state. -/
def gen_random_iter (mfaces : List MFace) (totfaces : Int) (rng : Nat) :
    MSurfaceSample × Nat :=
  let (r1, rng1) := rng_int rng
  let mface := mfaces.getD (((r1 : Int) % totfaces).toNat) mfaceDefault
  let vr :=
    if mface.v4 ≠ 0 then
      let (r2, rngq) := rng_int rng1
      if r2 % 2 = 0 then ((mface.v3, mface.v4, mface.v1), rngq)
      else ((mface.v1, mface.v2, mface.v3), rngq)
    else ((mface.v1, mface.v2, mface.v3), rng1)
  let (a, rng3) := rng_float vr.2
  let (b, rng4) := rng_float rng3
  (⟨vr.1, sample_weights_ab a b⟩, rng4)

/-- The sampling loop of BKE_mesh_sample_generate_random: fuel counts the
remaining iterations, i is the loop counter, stored the success count.
Selecting a face index modulo totfaces with totfaces = 0 is undefined
behaviour in C (division by zero), modelled as none. -/
def gen_random_go {σ : Type} (dst : MSurfaceSampleStorage σ)
    (mfaces : List MFace) (totfaces : Int) :
    Nat → Nat → Nat → σ → Int → Option (σ × Int)
  | 0, _, _, data, stored => some (data, stored)
  | fuel + 1, i, rng, data, stored =>
    if totfaces = 0 then none
    else
      match gen_random_iter mfaces totfaces rng with
      | (sample, rng4) =>
        match dst.store_sample data dst.capacity (i : Int) sample with
        | (data2, true) => gen_random_go dst mfaces totfaces fuel (i + 1) rng4 data2 (stored + 1)
        | (data2, false) => some (data2, stored)

/-- Models BKE_mesh_sample_generate_random: seeds the rng, iterates up to
totsample times building one sample per iteration, stores each at its loop
index, stops at the first failed store, and returns the stored count
together with the final storage data. -/
def BKE_mesh_sample_generate_random {σ : Type} (dst : MSurfaceSampleStorage σ)
    (data : σ) (dm : DerivedMesh) (seed : Nat) (totsample : Int) :
    Option (σ × Int) :=
  gen_random_go dst dm.tessfaces (dm.tessfaces.length : Int)
    totsample.toNat 0 (rng_seed seed) data 0

/-- Modelled from the spec: the bounding-volume-hierarchy raycast and the
barycentric weight computation used by BKE_mesh_sample_generate_raycast
(bvhutils.c, BLI_bvhtree_ray_cast and interp_weights_face_v3_index are not
under src/).  tree records whether bvhtree_from_mesh_faces produced a
tree; ray_hit yields the hit face index and location when the ray from
ray_start to ray_end hits the mesh; weights_from_loc abstracts
mesh_sample_weights_from_loc's barycentric weights at a hit location. -/
structure RaycastEnv where
  tree : Bool
  ray_hit : QV3 → QV3 → Option (Nat × QV3)
  weights_from_loc : Nat → QV3 → MSurfaceSample

/-- Models sample_bvh_raycast: on a hit, builds the sample from the hit
face index and location; otherwise fails. -/
def sample_bvh_raycast (env : RaycastEnv) (ray_start ray_end : QV3) :
    Option MSurfaceSample :=
  match env.ray_hit ray_start ray_end with
  | some (idx, co) => some (env.weights_from_loc idx co)
  | none => none

/-- The sampling loop of BKE_mesh_sample_generate_raycast: an iteration
contributes only when the ray callback succeeds, the raycast hits and the
store succeeds; a failed store breaks the loop. -/
def gen_raycast_go {σ : Type} (dst : MSurfaceSampleStorage σ)
    (env : RaycastEnv) (ray_cb : Nat → Option (QV3 × QV3)) :
    Nat → Nat → σ → Int → σ × Int
  | 0, _, data, stored => (data, stored)
  | fuel + 1, i, data, stored =>
    match ray_cb i with
    | none => gen_raycast_go dst env ray_cb fuel (i + 1) data stored
    | some (rs, re) =>
      match sample_bvh_raycast env rs re with
      | none => gen_raycast_go dst env ray_cb fuel (i + 1) data stored
      | some sample =>
        match dst.store_sample data dst.capacity (i : Int) sample with
        | (data2, true) => gen_raycast_go dst env ray_cb fuel (i + 1) data2 (stored + 1)
        | (data2, false) => (data2, stored)

/-- Models BKE_mesh_sample_generate_raycast: when no bvh tree was built
the loop is skipped and 0 is returned; otherwise up to totsample
iterations run, each calling the ray callback, raycasting and storing at
the loop index. -/
def BKE_mesh_sample_generate_raycast {σ : Type} (dst : MSurfaceSampleStorage σ)
    (data : σ) (env : RaycastEnv) (ray_cb : Nat → Option (QV3 × QV3))
    (totsample : Int) : σ × Int :=
  if env.tree then gen_raycast_go dst env ray_cb totsample.toNat 0 data 0
  else (data, 0)

/-- Success of one raycast-loop iteration i against an array storage of
capacity c: the ray callback succeeded, the raycast hit the mesh, and the
store succeeded (for the array storage: i < c). -/
def raycast_success (env : RaycastEnv) (ray_cb : Nat → Option (QV3 × QV3))
    (c : Int) (i : Nat) : Bool :=
  match ray_cb i with
  | none => false
  | some (rs, re) => (sample_bvh_raycast env rs re).isSome && decide ((i : Int) < c)

/-- Barycentric well-formedness of a sample's weights: each of the three
weights is non-negative and they sum to 1. -/
def goodSampleWeights (s : MSurfaceSample) : Prop :=
  0 ≤ s.orig_weights.1 ∧ 0 ≤ s.orig_weights.2.1 ∧ 0 ≤ s.orig_weights.2.2 ∧
    s.orig_weights.1 + s.orig_weights.2.1 + s.orig_weights.2.2 = 1

instance (s : MSurfaceSample) : Decidable (goodSampleWeights s) := by
  unfold goodSampleWeights
  infer_instance

/-- Concrete one-vertex mesh whose single vertex has an exactly encoded
unit normal along x. -/
def dmC1 : DerivedMesh := ⟨[⟨(0, 0, 0), (32767, 0, 0)⟩], []⟩

/-- Concrete sample on dmC1 with weight 2 on its only vertex. -/
def sC1 : MSurfaceSample := ⟨(0, 0, 0), (2, 0, 0)⟩

/-- Concrete mesh with no vertices and a single (degenerate) triangle
tessface; generate_random never reads the vertex array. -/
def dmTri : DerivedMesh := ⟨[], [⟨0, 0, 0, 0⟩]⟩

/-- Concrete one-vertex mesh with a non-zero coordinate and an exactly
encoded unit normal. -/
def dmVert : DerivedMesh := ⟨[⟨(5, 6, 7), (32767, 0, 0)⟩], []⟩

/-- Concrete sample with barycentric weight 1 on vertex 0. -/
def sUnit : MSurfaceSample := ⟨(0, 0, 0), (1, 0, 0)⟩

/-- Concrete raycast environment whose bvh tree exists and always hits
face 0 at the origin. -/
def envC7 : RaycastEnv := ⟨true, fun _ _ => some (0, (0, 0, 0)), fun _ _ => sampleDefault⟩

/-- Concrete ray callback that always produces the same ray. -/
def rcbC7 : Nat → Option (QV3 × QV3) := fun _ => some ((0, 0, 0), (1, 1, 1))

/-- The sample stored by the seed-0, totsample-1 run of
BKE_mesh_sample_generate_random on dmTri (weights from the modelled rng). -/
def sC9 : MSurfaceSample :=
  ⟨(0, 0, 0), (165062427 / 1073741824, 25162535 / 33554432, 103478277 / 1073741824)⟩

/-- Helper for C10: when totfaces is non-zero, the sampling loop never
reaches the undefined modulo and always yields a result. -/
theorem gen_random_go_some {σ : Type} (dst : MSurfaceSampleStorage σ)
    (mfaces : List MFace) (totfaces : Int) (hf : totfaces ≠ 0) :
    ∀ (fuel i rng : Nat) (data : σ) (stored : Int),
      ∃ r, gen_random_go dst mfaces totfaces fuel i rng data stored = some r := by
  intro fuel
  induction fuel with
  | zero => exact fun i rng data stored => ⟨(data, stored), rfl⟩
  | succ n ih =>
    intro i rng data stored
    simp only [gen_random_go, if_neg hf]
    rcases hIt : gen_random_iter mfaces totfaces rng with ⟨sample, rng4⟩
    dsimp only
    rcases hSt : dst.store_sample data dst.capacity (i : Int) sample with ⟨data2, ok⟩
    cases ok with
    | true => exact ih (i + 1) rng4 data2 (stored + 1)
    | false => exact ⟨(data2, stored), rfl⟩

/-- Helper: the madd_v3_v3fl accumulation chain starting from zero equals
the weighted sum written with add3 and smul3. -/
theorem madd_chain_eq (w1 w2 w3 : ℚ) (p1 p2 p3 : QV3) :
    madd_v3_v3fl (madd_v3_v3fl (madd_v3_v3fl (0, 0, 0) p1 w1) p2 w2) p3 w3 =
      add3 (add3 (smul3 w1 p1) (smul3 w2 p2)) (smul3 w3 p3) := by
  unfold madd_v3_v3fl add3 smul3
  refine Prod.ext ?_ (Prod.ext ?_ ?_) <;> dsimp <;> ring

/-- Helper: the real dot product of casted rational vectors is the cast of
the rational dot product. -/
theorem dot3r_q3r (a b : QV3) : dot3r (q3r a) (q3r b) = ((dot3q a b : ℚ) : ℝ) := by
  unfold dot3r dot3q q3r
  push_cast
  ring

/-- Helper: normalize_v3 fixes a vector of exact unit squared length. -/
theorem normalize_v3_unit (v : QV3) (hv : dot3q v v = 1) :
    normalize_v3 (q3r v) = q3r v := by
  simp only [normalize_v3]
  rw [dot3r_q3r, hv, Rat.cast_one]
  rw [if_pos (by norm_num : (1 : ℝ) > 1 / 10 ^ 35)]
  rw [Real.sqrt_one]
  simp [q3r]

/-- Helper: accumulation chain with weights (1, 0, 0). -/
theorem madd_chain_100 (p1 p2 p3 : QV3) :
    madd_v3_v3fl (madd_v3_v3fl (madd_v3_v3fl (0, 0, 0) p1 1) p2 0) p3 0 = p1 := by
  unfold madd_v3_v3fl
  refine Prod.ext ?_ (Prod.ext ?_ ?_) <;> dsimp <;> ring

/-- Helper: accumulation chain with weights (0, 1, 0). -/
theorem madd_chain_010 (p1 p2 p3 : QV3) :
    madd_v3_v3fl (madd_v3_v3fl (madd_v3_v3fl (0, 0, 0) p1 0) p2 1) p3 0 = p2 := by
  unfold madd_v3_v3fl
  refine Prod.ext ?_ (Prod.ext ?_ ?_) <;> dsimp <;> ring

/-- Helper: accumulation chain with weights (0, 0, 1). -/
theorem madd_chain_001 (p1 p2 p3 : QV3) :
    madd_v3_v3fl (madd_v3_v3fl (madd_v3_v3fl (0, 0, 0) p1 0) p2 0) p3 1 = p3 := by
  unfold madd_v3_v3fl
  refine Prod.ext ?_ (Prod.ext ?_ ?_) <;> dsimp <;> ring

/-- C1 (amended): for in-range samples, BKE_mesh_sample_eval returns the
position as the weighted sum of the three owning vertices' positions and
the normal as the result of normalizing the weighted sum of the three
owning vertices' decoded normals. -/
theorem eval_weighted_sum (dm : DerivedMesh) (s : MSurfaceSample)
    (h1 : s.orig_verts.1 < dm.verts.length) (h2 : s.orig_verts.2.1 < dm.verts.length)
    (h3 : s.orig_verts.2.2 < dm.verts.length) :
    BKE_mesh_sample_eval dm s =
      (true, sample_weighted_loc dm s, normalize_v3 (q3r (sample_weighted_nor dm s))) := by
  have hcore : BKE_mesh_sample_eval_core dm s =
      some (sample_weighted_loc dm s, sample_weighted_nor dm s) := by
    simp only [BKE_mesh_sample_eval_core]
    rw [if_neg (by omega)]
    rw [madd_chain_eq, madd_chain_eq]
    rfl
  unfold BKE_mesh_sample_eval
  rw [hcore]

/-- Witness for the amended C1 at a concrete in-range sample. -/
theorem eval_weighted_sum_witness :
    (sUnit.orig_verts.1 < dmVert.verts.length ∧
        sUnit.orig_verts.2.1 < dmVert.verts.length ∧
        sUnit.orig_verts.2.2 < dmVert.verts.length) ∧
      BKE_mesh_sample_eval dmVert sUnit =
        (true, sample_weighted_loc dmVert sUnit,
          normalize_v3 (q3r (sample_weighted_nor dmVert sUnit))) :=
  ⟨⟨by decide, by decide, by decide⟩,
    eval_weighted_sum dmVert sUnit (by decide) (by decide) (by decide)⟩

/-- Counterexample for C1 as literally stated: on a one-vertex mesh whose
vertex has decoded normal (1,0,0) and a sample of weight 2 on that vertex,
the returned normal is the normalized vector (1,0,0), not the plain
weighted sum (2,0,0) of the vertices' normals. -/
theorem eval_not_plain_weighted_sum :
    ¬ BKE_mesh_sample_eval dmC1 sC1 =
        (true, sample_weighted_loc dmC1 sC1, q3r (sample_weighted_nor dmC1 sC1)) := by
  intro h
  have h3 : (BKE_mesh_sample_eval dmC1 sC1).2.2 = q3r (sample_weighted_nor dmC1 sC1) := by
    rw [h]
  have hcore : BKE_mesh_sample_eval_core dmC1 sC1 = some ((0, 0, 0), (2, 0, 0)) := by
    norm_num [BKE_mesh_sample_eval_core, dmC1, sC1, madd_v3_v3fl, normal_short_to_float,
      mvertDefault, List.getD]
  have hspec : sample_weighted_nor dmC1 sC1 = (2, 0, 0) := by
    norm_num [sample_weighted_nor, add3, smul3, normal_short_to_float, dmC1, sC1,
      mvertDefault, List.getD]
  rw [hspec] at h3
  have heval : (BKE_mesh_sample_eval dmC1 sC1).2.2 = normalize_v3 (q3r (2, 0, 0)) := by
    unfold BKE_mesh_sample_eval
    rw [hcore]
  rw [heval] at h3
  have hq : q3r (2, 0, 0) = ((2 : ℝ), (0 : ℝ), (0 : ℝ)) := by
    unfold q3r
    norm_num
  rw [hq] at h3
  have hd : dot3r ((2 : ℝ), (0 : ℝ), (0 : ℝ)) ((2 : ℝ), (0 : ℝ), (0 : ℝ)) = 4 := by
    unfold dot3r
    norm_num
  simp only [normalize_v3] at h3
  rw [hd] at h3
  rw [if_pos (by norm_num : (4 : ℝ) > 1 / 10 ^ 35)] at h3
  have hs4 : Real.sqrt 4 = 2 := by
    rw [show (4 : ℝ) = 2 ^ 2 by norm_num]
    exact Real.sqrt_sq (by norm_num)
  rw [hs4] at h3
  have h1 := congrArg (fun t : RV3 => t.1) h3
  dsimp at h1
  norm_num at h1

/-- C2: a sample with weight 1 at an in-range vertex k and weight 0 at the
other two evaluates to exactly vertex k's position and exactly vertex k's
(decoded, exactly unit-length) normal. -/
theorem eval_at_vertex (dm : DerivedMesh) (s : MSurfaceSample) (k : Nat)
    (h1 : s.orig_verts.1 < dm.verts.length) (h2 : s.orig_verts.2.1 < dm.verts.length)
    (h3 : s.orig_verts.2.2 < dm.verts.length)
    (hw : (s.orig_weights = (1, 0, 0) ∧ k = s.orig_verts.1) ∨
      (s.orig_weights = (0, 1, 0) ∧ k = s.orig_verts.2.1) ∨
      (s.orig_weights = (0, 0, 1) ∧ k = s.orig_verts.2.2))
    (hn : dot3q (normal_short_to_float ((dm.verts.getD k mvertDefault).no))
      (normal_short_to_float ((dm.verts.getD k mvertDefault).no)) = 1) :
    BKE_mesh_sample_eval dm s =
      (true, (dm.verts.getD k mvertDefault).co,
        q3r (normal_short_to_float ((dm.verts.getD k mvertDefault).no))) := by
  have hcore : BKE_mesh_sample_eval_core dm s =
      some ((dm.verts.getD k mvertDefault).co,
        normal_short_to_float ((dm.verts.getD k mvertDefault).no)) := by
    simp only [BKE_mesh_sample_eval_core]
    rw [if_neg (by omega)]
    rcases hw with ⟨hweq, hk⟩ | ⟨hweq, hk⟩ | ⟨hweq, hk⟩ <;> subst hk <;> rw [hweq] <;>
      dsimp only
    · rw [madd_chain_100, madd_chain_100]
    · rw [madd_chain_010, madd_chain_010]
    · rw [madd_chain_001, madd_chain_001]
  unfold BKE_mesh_sample_eval
  rw [hcore]
  dsimp only
  rw [normalize_v3_unit _ hn]

/-- Witness for C2 at a concrete one-vertex mesh with an exactly encoded
unit normal. -/
theorem eval_at_vertex_witness :
    (sUnit.orig_verts.1 < dmVert.verts.length ∧ sUnit.orig_weights = (1, 0, 0) ∧
        dot3q (normal_short_to_float ((dmVert.verts.getD 0 mvertDefault).no))
          (normal_short_to_float ((dmVert.verts.getD 0 mvertDefault).no)) = 1) ∧
      BKE_mesh_sample_eval dmVert sUnit =
        (true, (dmVert.verts.getD 0 mvertDefault).co,
          q3r (normal_short_to_float ((dmVert.verts.getD 0 mvertDefault).no))) :=
  ⟨⟨by decide, rfl,
      by norm_num [dot3q, normal_short_to_float, dmVert, mvertDefault, List.getD]⟩,
    eval_at_vertex dmVert sUnit 0 (by decide) (by decide) (by decide)
      (Or.inl ⟨rfl, rfl⟩)
      (by norm_num [dot3q, normal_short_to_float, dmVert, mvertDefault, List.getD])⟩

/-- C5: A default-constructed Options value satisfies the data-model
invariant: max_admm_iters >= 1, max_cg_iters >= 1, max_gs_iters >= 1, and
timestep_s > 0. -/
theorem options_default_invariant :
    1 ≤ Options.defaultCtor.max_admm_iters ∧ 1 ≤ Options.defaultCtor.max_cg_iters ∧
      1 ≤ Options.defaultCtor.max_gs_iters ∧ 0 < Options.defaultCtor.timestep_s :=
  ⟨by decide, by decide, by decide, by norm_num [Options.defaultCtor]⟩

/-- C4: BKE_mesh_sample_generate_random with totsample = 0 returns 0 and
leaves the sample storage contents unchanged, for every mesh and every
storage. -/
theorem generate_random_totsample_zero {σ : Type} (dst : MSurfaceSampleStorage σ)
    (data : σ) (dm : DerivedMesh) (seed : Nat) :
    BKE_mesh_sample_generate_random dst data dm seed 0 = some (data, 0) := rfl

/-- C8: when any of the three owning vertex indices of the sample is out
of range, BKE_mesh_sample_eval returns false and zero location and normal. -/
theorem eval_out_of_range (dm : DerivedMesh) (s : MSurfaceSample)
    (h : dm.verts.length ≤ s.orig_verts.1 ∨ dm.verts.length ≤ s.orig_verts.2.1 ∨
      dm.verts.length ≤ s.orig_verts.2.2) :
    BKE_mesh_sample_eval dm s = (false, (0, 0, 0), ((0 : ℝ), (0 : ℝ), (0 : ℝ))) := by
  have hcore : BKE_mesh_sample_eval_core dm s = none := by
    simp only [BKE_mesh_sample_eval_core]
    rw [if_pos h]
  unfold BKE_mesh_sample_eval
  rw [hcore]

/-- Witness for C8 at a concrete out-of-range sample. -/
theorem eval_out_of_range_witness :
    (dmVert.verts.length ≤ (1 : Nat) ∨ dmVert.verts.length ≤ (0 : Nat) ∨
        dmVert.verts.length ≤ (0 : Nat)) ∧
      BKE_mesh_sample_eval dmVert ⟨(1, 0, 0), (1, 0, 0)⟩ =
        (false, (0, 0, 0), ((0 : ℝ), (0 : ℝ), (0 : ℝ))) :=
  ⟨Or.inl (by decide),
    eval_out_of_range dmVert ⟨(1, 0, 0), (1, 0, 0)⟩ (Or.inl (by decide))⟩

/-- C6: BKE_mesh_sample_generate_random is deterministic in its seed: with
the same mesh, storage, initial data and totsample, equal seeds give equal
results (return value and stored samples alike). -/
theorem generate_random_deterministic {σ : Type} (dst : MSurfaceSampleStorage σ)
    (data : σ) (dm : DerivedMesh) (seed1 seed2 : Nat) (totsample : Int)
    (h : seed1 = seed2) :
    BKE_mesh_sample_generate_random dst data dm seed1 totsample =
      BKE_mesh_sample_generate_random dst data dm seed2 totsample := by
  rw [h]

/-- Witness for C6 at a concrete mesh, storage and seed. -/
theorem generate_random_deterministic_witness :
    (7 = 7) ∧
      BKE_mesh_sample_generate_random (BKE_mesh_sample_storage_array 1)
          [sampleDefault] dmTri 7 1 =
        BKE_mesh_sample_generate_random (BKE_mesh_sample_storage_array 1)
          [sampleDefault] dmTri 7 1 :=
  ⟨rfl, generate_random_deterministic _ _ _ 7 7 1 rfl⟩

/-- C10: with totsample >= 1, a mesh with no tessellated face drives the
face selection into a modulo by zero (undefined behaviour, modelled as
none), while any mesh with at least one tessellated face always yields a
result. -/
theorem generate_random_requires_faces {σ : Type} (dst : MSurfaceSampleStorage σ)
    (data : σ) (dm : DerivedMesh) (seed : Nat) (totsample : Int) :
    (1 ≤ totsample → dm.tessfaces = [] →
        BKE_mesh_sample_generate_random dst data dm seed totsample = none) ∧
      (dm.tessfaces ≠ [] →
        ∃ r, BKE_mesh_sample_generate_random dst data dm seed totsample = some r) := by
  constructor
  · intro ht hempty
    unfold BKE_mesh_sample_generate_random
    rw [hempty]
    have h1 : totsample.toNat = (totsample.toNat - 1) + 1 := by omega
    rw [h1]
    simp [gen_random_go]
  · intro hne
    have hf : (dm.tessfaces.length : Int) ≠ 0 := by
      have hlen : 0 < dm.tessfaces.length := List.length_pos.mpr hne
      exact Int.natCast_ne_zero.mpr (Nat.pos_iff_ne_zero.mp hlen)
    exact gen_random_go_some _ _ _ hf _ _ _ _ _

/-- Helper for C3: with an array storage of capacity c and loop counter i
at most c, the loop stores one sample per iteration until the store at
index c fails; it returns stored + (c - i) and leaves entries at indices
at and beyond c untouched. -/
theorem gen_random_go_array_fill (mfaces : List MFace)
    (hf : (mfaces.length : Int) ≠ 0) (c : Int) :
    ∀ (fuel : Nat), ∀ (i rng : Nat) (data : List MSurfaceSample) (stored : Int),
      (i : Int) ≤ c → c < (i : Int) + (fuel : Int) →
      ∃ data2,
        gen_random_go (BKE_mesh_sample_storage_array c) mfaces ((mfaces.length : Int))
            fuel i rng data stored = some (data2, stored + (c - (i : Int))) ∧
          ∀ j : Nat, c ≤ (j : Int) → data2[j]? = data[j]? := by
  intro fuel
  induction fuel with
  | zero =>
    intro i rng data stored hle hlt
    exfalso
    omega
  | succ n ih =>
    intro i rng data stored hle hlt
    simp only [gen_random_go, if_neg hf]
    rcases hIt : gen_random_iter mfaces ((mfaces.length : Int)) rng with ⟨sample, rng4⟩
    dsimp only
    by_cases hic : (i : Int) ≥ c
    · have hstore : (BKE_mesh_sample_storage_array c).store_sample data
          (BKE_mesh_sample_storage_array c).capacity ((i : Int)) sample = (data, false) := by
        simp only [BKE_mesh_sample_storage_array, mesh_sample_store_array_sample]
        rw [if_pos hic]
      rw [hstore]
      dsimp only
      refine ⟨data, ?_, fun j hj => rfl⟩
      have hz : c - (i : Int) = 0 := by omega
      rw [hz, add_zero]
    · have hstore : (BKE_mesh_sample_storage_array c).store_sample data
          (BKE_mesh_sample_storage_array c).capacity ((i : Int)) sample =
          (data.set (Int.toNat ((i : Int))) sample, true) := by
        simp only [BKE_mesh_sample_storage_array, mesh_sample_store_array_sample]
        rw [if_neg hic]
      rw [hstore]
      dsimp only
      obtain ⟨data2, hgo, hframe⟩ := ih (i + 1) rng4
        (data.set (Int.toNat ((i : Int))) sample) (stored + 1) (by omega) (by omega)
      refine ⟨data2, ?_, ?_⟩
      · rw [show stored + 1 + (c - ((i + 1 : Nat) : Int)) = stored + (c - (i : Int)) from by
          push_cast
          ring] at hgo
        exact hgo
      · intro j hj
        rw [hframe j hj]
        apply List.getElem?_set_ne
        rw [Int.toNat_natCast i]
        omega

/-- Helper for C3: once enough fuel remains to reach the failing store at
index c, the loop's result does not depend on the exact fuel: the loop
stops at the first failed store. -/
theorem gen_random_go_array_stops (mfaces : List MFace)
    (hf : (mfaces.length : Int) ≠ 0) (c : Int) :
    ∀ (fuel1 : Nat), ∀ (fuel2 i rng : Nat) (data : List MSurfaceSample) (stored : Int),
      (i : Int) ≤ c → c < (i : Int) + (fuel1 : Int) → c < (i : Int) + (fuel2 : Int) →
      gen_random_go (BKE_mesh_sample_storage_array c) mfaces ((mfaces.length : Int))
          fuel1 i rng data stored =
        gen_random_go (BKE_mesh_sample_storage_array c) mfaces ((mfaces.length : Int))
          fuel2 i rng data stored := by
  intro fuel1
  induction fuel1 with
  | zero =>
    intro fuel2 i rng data stored h1 h2 h3
    exfalso
    omega
  | succ n ih =>
    intro fuel2 i rng data stored h1 h2 h3
    cases fuel2 with
    | zero =>
      exfalso
      omega
    | succ m =>
      simp only [gen_random_go, if_neg hf]
      rcases hIt : gen_random_iter mfaces ((mfaces.length : Int)) rng with ⟨sample, rng4⟩
      dsimp only
      by_cases hic : (i : Int) ≥ c
      · have hstore : (BKE_mesh_sample_storage_array c).store_sample data
            (BKE_mesh_sample_storage_array c).capacity ((i : Int)) sample = (data, false) := by
          simp only [BKE_mesh_sample_storage_array, mesh_sample_store_array_sample]
          rw [if_pos hic]
        rw [hstore]
      · have hstore : (BKE_mesh_sample_storage_array c).store_sample data
            (BKE_mesh_sample_storage_array c).capacity ((i : Int)) sample =
            (data.set (Int.toNat ((i : Int))) sample, true) := by
          simp only [BKE_mesh_sample_storage_array, mesh_sample_store_array_sample]
          rw [if_neg hic]
        rw [hstore]
        dsimp only
        exact ih m (i + 1) rng4 (data.set (Int.toNat ((i : Int))) sample) (stored + 1)
          (by omega) (by omega) (by omega)

/-- C3: on a mesh with at least one tessellated face and an array storage
of capacity c with 0 <= c < totsample, BKE_mesh_sample_generate_random
returns exactly c, writes nothing at indices at or beyond c, and its
result is the one of the run stopped right after the first failed store
(totsample = c + 1), i.e. later iterations never happen. -/
theorem generate_random_fills_capacity (dm : DerivedMesh) (hm : dm.tessfaces ≠ [])
    (c : Int) (hc : 0 ≤ c) (data : List MSurfaceSample) (seed : Nat) (totsample : Int)
    (ht : c < totsample) :
    (∃ data2,
        BKE_mesh_sample_generate_random (BKE_mesh_sample_storage_array c) data dm seed
            totsample = some (data2, c) ∧
          ∀ j : Nat, c ≤ (j : Int) → data2[j]? = data[j]?) ∧
      BKE_mesh_sample_generate_random (BKE_mesh_sample_storage_array c) data dm seed
          totsample =
        BKE_mesh_sample_generate_random (BKE_mesh_sample_storage_array c) data dm seed
          (c + 1) := by
  have hf : (dm.tessfaces.length : Int) ≠ 0 := by
    have hlen : 0 < dm.tessfaces.length := List.length_pos.mpr hm
    exact Int.natCast_ne_zero.mpr (Nat.pos_iff_ne_zero.mp hlen)
  constructor
  · obtain ⟨data2, hgo, hframe⟩ := gen_random_go_array_fill dm.tessfaces hf c
      totsample.toNat 0 (rng_seed seed) data 0 (by omega) (by omega)
    refine ⟨data2, ?_, hframe⟩
    unfold BKE_mesh_sample_generate_random
    rw [show (0 : Int) + (c - ((0 : Nat) : Int)) = c from by push_cast; ring] at hgo
    exact hgo
  · unfold BKE_mesh_sample_generate_random
    exact gen_random_go_array_stops dm.tessfaces hf c totsample.toNat (c + 1).toNat 0
      (rng_seed seed) data 0 (by omega) (by omega) (by omega)

/-- Witness for C3 at a concrete one-face mesh, capacity 1 and
totsample 2. -/
theorem generate_random_fills_capacity_witness :
    (dmTri.tessfaces ≠ [] ∧ (0 : Int) ≤ 1 ∧ (1 : Int) < 2) ∧
      ((∃ data2,
          BKE_mesh_sample_generate_random (BKE_mesh_sample_storage_array 1)
              [sampleDefault, sampleDefault] dmTri 0 2 = some (data2, 1) ∧
            ∀ j : Nat, (1 : Int) ≤ (j : Int) →
              data2[j]? = [sampleDefault, sampleDefault][j]?) ∧
        BKE_mesh_sample_generate_random (BKE_mesh_sample_storage_array 1)
            [sampleDefault, sampleDefault] dmTri 0 2 =
          BKE_mesh_sample_generate_random (BKE_mesh_sample_storage_array 1)
            [sampleDefault, sampleDefault] dmTri 0 (1 + 1)) :=
  ⟨⟨by decide, by decide, by decide⟩,
    generate_random_fills_capacity dmTri (by decide) 1 (by decide)
      [sampleDefault, sampleDefault] 0 2 (by decide)⟩

/-- Helper: the modelled rng_float output lies in [0, 1). -/
theorem rng_float_bounds (x : Nat) : 0 ≤ (rng_float x).1 ∧ (rng_float x).1 < 1 := by
  unfold rng_float
  dsimp only
  constructor
  · positivity
  · rw [div_lt_one (by norm_num)]
    have h2 : rng_step x < 2 ^ 48 := by
      unfold rng_step
      exact Nat.mod_lt _ (by norm_num)
    have h : rng_step x / 2 ^ 17 < 2 ^ 31 := by omega
    exact_mod_cast h

/-- Helper: the weight triple built from a, b in [0, 1] has non-negative
components summing to 1 (with the reflection applied when a + b > 1). -/
theorem sample_weights_ab_good (a b : ℚ) (ha0 : 0 ≤ a) (ha1 : a ≤ 1)
    (hb0 : 0 ≤ b) (hb1 : b ≤ 1) :
    0 ≤ (sample_weights_ab a b).1 ∧ 0 ≤ (sample_weights_ab a b).2.1 ∧
      0 ≤ (sample_weights_ab a b).2.2 ∧
      (sample_weights_ab a b).1 + (sample_weights_ab a b).2.1 +
        (sample_weights_ab a b).2.2 = 1 := by
  simp only [sample_weights_ab]
  by_cases h : a + b > 1
  · rw [if_pos h]
    dsimp only
    refine ⟨by linarith, by linarith, by linarith, by ring⟩
  · rw [if_neg h]
    dsimp only
    refine ⟨by linarith, by linarith, by linarith, by ring⟩

/-- Helper: a sample whose weights come from sample_weights_ab with inputs
in [0, 1] satisfies goodSampleWeights. -/
theorem goodSampleWeights_mk (v : Nat × Nat × Nat) (a b : ℚ) (ha0 : 0 ≤ a)
    (ha1 : a ≤ 1) (hb0 : 0 ≤ b) (hb1 : b ≤ 1) :
    goodSampleWeights ⟨v, sample_weights_ab a b⟩ := by
  unfold goodSampleWeights
  dsimp only
  exact sample_weights_ab_good a b ha0 ha1 hb0 hb1

/-- Helper: every sample built by one random-generation iteration has good
barycentric weights. -/
theorem gen_random_iter_good (mfaces : List MFace) (totfaces : Int) (rng : Nat) :
    goodSampleWeights (gen_random_iter mfaces totfaces rng).1 :=
  goodSampleWeights_mk _ _ _ (rng_float_bounds _).1 (le_of_lt (rng_float_bounds _).2)
    (rng_float_bounds _).1 (le_of_lt (rng_float_bounds _).2)

/-- Helper: the weights of a generated sample are sample_weights_ab of two
generated values in [0, 1). -/
theorem gen_random_iter_form (mfaces : List MFace) (totfaces : Int) (rng : Nat) :
    ∃ a b : ℚ, 0 ≤ a ∧ a < 1 ∧ 0 ≤ b ∧ b < 1 ∧
      (gen_random_iter mfaces totfaces rng).1.orig_weights = sample_weights_ab a b := by
  refine ⟨_, _, (rng_float_bounds _).1, (rng_float_bounds _).2,
    (rng_float_bounds _).1, (rng_float_bounds _).2, rfl⟩

/-- Helper for C9: every sample present in the array storage after the
random-generation loop either was present initially or has weights of the
generated reflected-pair form, non-negative and summing to 1. -/
theorem gen_random_go_array_good (mfaces : List MFace) (totfaces : Int) (c : Int) :
    ∀ (fuel i rng : Nat) (data : List MSurfaceSample) (stored : Int)
      (data2 : List MSurfaceSample) (n : Int),
      gen_random_go (BKE_mesh_sample_storage_array c) mfaces totfaces fuel i rng data
        stored = some (data2, n) →
      ∀ s ∈ data2, s ∈ data ∨ (goodSampleWeights s ∧ ∃ a b : ℚ,
        0 ≤ a ∧ a < 1 ∧ 0 ≤ b ∧ b < 1 ∧ s.orig_weights = sample_weights_ab a b) := by
  intro fuel
  induction fuel with
  | zero =>
    intro i rng data stored data2 n h s hs
    simp only [gen_random_go, Option.some.injEq, Prod.mk.injEq] at h
    obtain ⟨h1, h2⟩ := h
    subst h1
    exact Or.inl hs
  | succ m ih =>
    intro i rng data stored data2 n h s hs
    by_cases hf : totfaces = 0
    · rw [gen_random_go, if_pos hf] at h
      exact absurd h (by simp)
    · simp only [gen_random_go, if_neg hf] at h
      rcases hIt : gen_random_iter mfaces totfaces rng with ⟨sample, rng4⟩
      rw [hIt] at h
      dsimp only at h
      by_cases hic : (i : Int) ≥ c
      · have hstore : (BKE_mesh_sample_storage_array c).store_sample data
            (BKE_mesh_sample_storage_array c).capacity (i : Int) sample = (data, false) := by
          simp only [BKE_mesh_sample_storage_array, mesh_sample_store_array_sample]
          rw [if_pos hic]
        rw [hstore] at h
        dsimp only at h
        simp only [Option.some.injEq, Prod.mk.injEq] at h
        obtain ⟨h1, h2⟩ := h
        subst h1
        exact Or.inl hs
      · have hstore : (BKE_mesh_sample_storage_array c).store_sample data
            (BKE_mesh_sample_storage_array c).capacity (i : Int) sample =
            (data.set ((i : Int)).toNat sample, true) := by
          simp only [BKE_mesh_sample_storage_array, mesh_sample_store_array_sample]
          rw [if_neg hic]
        rw [hstore] at h
        dsimp only at h
        rcases ih (i + 1) rng4 (data.set ((i : Int)).toNat sample) (stored + 1) data2 n h
          s hs with hmem | hgood
        · rcases List.mem_or_eq_of_mem_set hmem with hm | he
          · exact Or.inl hm
          · subst he
            right
            constructor
            · have hg := gen_random_iter_good mfaces totfaces rng
              rw [hIt] at hg
              exact hg
            · have hg := gen_random_iter_form mfaces totfaces rng
              rw [hIt] at hg
              exact hg
        · exact Or.inr hgood

/-- C9: every sample stored into an array storage by
BKE_mesh_sample_generate_random (beyond the initial contents) has three
non-negative barycentric weights summing to 1, of the form
(1-(a+b), a, b) with the generated pair (a, b) in [0,1) x [0,1) reflected
to (1-a, 1-b) when a + b > 1. -/
theorem generate_random_weights_barycentric (c : Int) (data : List MSurfaceSample)
    (dm : DerivedMesh) (seed : Nat) (totsample : Int) (data2 : List MSurfaceSample)
    (n : Int)
    (h : BKE_mesh_sample_generate_random (BKE_mesh_sample_storage_array c) data dm seed
      totsample = some (data2, n)) :
    ∀ s ∈ data2, s ∈ data ∨ (goodSampleWeights s ∧ ∃ a b : ℚ,
      0 ≤ a ∧ a < 1 ∧ 0 ≤ b ∧ b < 1 ∧ s.orig_weights = sample_weights_ab a b) :=
  gen_random_go_array_good dm.tessfaces (dm.tessfaces.length : Int) c totsample.toNat 0
    (rng_seed seed) data 0 data2 n h

/-- Witness for C9 at a concrete one-face mesh: the run stores exactly one
sample, whose weights are the computed rng values. -/
theorem generate_random_weights_barycentric_witness :
    BKE_mesh_sample_generate_random (BKE_mesh_sample_storage_array 1) [sampleDefault]
        dmTri 0 1 = some ([sC9], 1) ∧
      (sC9 ∈ [sampleDefault] ∨ (goodSampleWeights sC9 ∧ ∃ a b : ℚ,
        0 ≤ a ∧ a < 1 ∧ 0 ≤ b ∧ b < 1 ∧ sC9.orig_weights = sample_weights_ab a b)) :=
  ⟨by with_unfolding_all rfl,
    generate_random_weights_barycentric 1 [sampleDefault] dmTri 0 1 [sC9] 1
      (by with_unfolding_all rfl) sC9 (by simp)⟩

/-- Helper: the number of naturals below m in range n is at most min m n. -/
theorem countP_range_lt_le (n m : Nat) :
    (List.range n).countP (fun i => decide (i < m)) ≤ min m n := by
  induction n with
  | zero => simp
  | succ k ih =>
    rw [List.range_succ, List.countP_append, List.countP_cons, List.countP_nil]
    by_cases h : k < m
    · simp [h]
      omega
    · simp [h]
      omega

/-- Helper for C7: the raycast loop's count is the initial count plus the
number of fully successful iterations among the remaining range; a failed
store can only happen at an index at or beyond the capacity, where no
later iteration can succeed either. -/
theorem gen_raycast_go_count (env : RaycastEnv) (rcb : Nat → Option (QV3 × QV3))
    (c : Int) :
    ∀ (fuel i : Nat) (data : List MSurfaceSample) (stored : Int),
      (gen_raycast_go (BKE_mesh_sample_storage_array c) env rcb fuel i data stored).2 =
        stored + (((List.range' i fuel).countP (raycast_success env rcb c) : Nat) : Int) := by
  intro fuel
  induction fuel with
  | zero =>
    intro i data stored
    simp [gen_raycast_go]
  | succ m ih =>
    intro i data stored
    rw [List.range'_succ, List.countP_cons]
    cases hcb : rcb i with
    | none =>
      have hp : raycast_success env rcb c i = false := by
        unfold raycast_success
        rw [hcb]
      simp only [gen_raycast_go]
      rw [hcb]
      dsimp only
      rw [ih (i + 1) data stored, hp]
      simp
    | some pr =>
      rcases pr with ⟨rs, re⟩
      cases hhit : sample_bvh_raycast env rs re with
      | none =>
        have hp : raycast_success env rcb c i = false := by
          unfold raycast_success
          rw [hcb]
          dsimp only
          rw [hhit]
          rfl
        simp only [gen_raycast_go]
        rw [hcb]
        dsimp only
        rw [hhit]
        dsimp only
        rw [ih (i + 1) data stored, hp]
        simp
      | some sample =>
        by_cases hic : (i : Int) ≥ c
        · have hstore : (BKE_mesh_sample_storage_array c).store_sample data
              (BKE_mesh_sample_storage_array c).capacity (i : Int) sample = (data, false) := by
            simp only [BKE_mesh_sample_storage_array, mesh_sample_store_array_sample]
            rw [if_pos hic]
          have hp : raycast_success env rcb c i = false := by
            unfold raycast_success
            rw [hcb]
            dsimp only
            rw [hhit]
            simp only [Option.isSome_some, Bool.true_and]
            exact decide_eq_false (by omega)
          have hrest : (List.range' (i + 1) m).countP (raycast_success env rcb c) = 0 := by
            rw [List.countP_eq_zero]
            intro j hj
            have hij : i + 1 ≤ j := (List.mem_range'_1.mp hj).1
            unfold raycast_success
            cases hcbj : rcb j with
            | none => simp
            | some pr2 =>
              rcases pr2 with ⟨rs2, re2⟩
              dsimp only
              simp only [Bool.and_eq_true, decide_eq_true_eq, not_and]
              intro _
              omega
          simp only [gen_raycast_go]
          rw [hcb]
          dsimp only
          rw [hhit]
          dsimp only
          rw [hstore]
          dsimp only
          rw [hp, hrest]
          simp
        · have hstore : (BKE_mesh_sample_storage_array c).store_sample data
              (BKE_mesh_sample_storage_array c).capacity (i : Int) sample =
              (data.set ((i : Int)).toNat sample, true) := by
            simp only [BKE_mesh_sample_storage_array, mesh_sample_store_array_sample]
            rw [if_neg hic]
          have hp : raycast_success env rcb c i = true := by
            unfold raycast_success
            rw [hcb]
            dsimp only
            rw [hhit]
            simp only [Option.isSome_some, Bool.true_and]
            exact decide_eq_true (by omega)
          simp only [gen_raycast_go]
          rw [hcb]
          dsimp only
          rw [hhit]
          dsimp only
          rw [hstore]
          dsimp only
          rw [ih (i + 1) (data.set ((i : Int)).toNat sample) (stored + 1), hp]
          simp
          omega

/-- C7: against an array storage of capacity c, the stored-sample count of
BKE_mesh_sample_generate_raycast is at most totsample, at most c, and
(when a bvh tree exists) equal to the number of iterations whose ray
callback succeeded, whose raycast hit and whose store succeeded. -/
theorem generate_raycast_count (c : Int) (hc : 0 ≤ c) (data : List MSurfaceSample)
    (env : RaycastEnv) (ray_cb : Nat → Option (QV3 × QV3)) (totsample : Int)
    (ht : 0 ≤ totsample) :
    (BKE_mesh_sample_generate_raycast (BKE_mesh_sample_storage_array c) data env ray_cb
        totsample).2 ≤ totsample ∧
      (BKE_mesh_sample_generate_raycast (BKE_mesh_sample_storage_array c) data env ray_cb
        totsample).2 ≤ c ∧
      (env.tree = true →
        (BKE_mesh_sample_generate_raycast (BKE_mesh_sample_storage_array c) data env ray_cb
          totsample).2 =
        (((List.range totsample.toNat).countP (raycast_success env ray_cb c) : Nat) : Int)) := by
  by_cases htree : env.tree = true
  · have hkey : (BKE_mesh_sample_generate_raycast (BKE_mesh_sample_storage_array c) data env
        ray_cb totsample).2 =
        (((List.range totsample.toNat).countP (raycast_success env ray_cb c) : Nat) : Int) := by
      unfold BKE_mesh_sample_generate_raycast
      rw [if_pos htree]
      rw [gen_raycast_go_count env ray_cb c totsample.toNat 0 data 0]
      rw [List.range_eq_range']
      ring
    refine ⟨?_, ?_, fun _ => hkey⟩
    · rw [hkey]
      have h2 := List.countP_le_length (raycast_success env ray_cb c)
        (l := List.range totsample.toNat)
      rw [List.length_range] at h2
      omega
    · rw [hkey]
      have hmono : (List.range totsample.toNat).countP (raycast_success env ray_cb c) ≤
          (List.range totsample.toNat).countP (fun i => decide (i < c.toNat)) := by
        apply List.countP_mono_left
        intro x hx hpx
        unfold raycast_success at hpx
        rcases hcbx : ray_cb x with _ | ⟨rs, re⟩
        · rw [hcbx] at hpx
          exact absurd hpx (by simp)
        · rw [hcbx] at hpx
          dsimp only at hpx
          simp only [Bool.and_eq_true, decide_eq_true_eq] at hpx
          exact decide_eq_true (by omega)
      have hle := countP_range_lt_le totsample.toNat c.toNat
      omega
  · have h0 : (BKE_mesh_sample_generate_raycast (BKE_mesh_sample_storage_array c) data env
        ray_cb totsample).2 = 0 := by
      unfold BKE_mesh_sample_generate_raycast
      rw [if_neg htree]
    exact ⟨by rw [h0]; exact ht, by rw [h0]; exact hc, fun h => absurd h htree⟩

/-- Witness for C7 at a concrete always-hitting environment with capacity 1
and totsample 2. -/
theorem generate_raycast_count_witness :
    ((0 : Int) ≤ 1 ∧ (0 : Int) ≤ 2) ∧
      ((BKE_mesh_sample_generate_raycast (BKE_mesh_sample_storage_array 1) [sampleDefault]
          envC7 rcbC7 2).2 ≤ 2 ∧
        (BKE_mesh_sample_generate_raycast (BKE_mesh_sample_storage_array 1) [sampleDefault]
          envC7 rcbC7 2).2 ≤ 1 ∧
        (envC7.tree = true →
          (BKE_mesh_sample_generate_raycast (BKE_mesh_sample_storage_array 1) [sampleDefault]
            envC7 rcbC7 2).2 =
          ((((List.range (2 : Int).toNat).countP (raycast_success envC7 rcbC7 1)) : Nat) : Int))) :=
  ⟨⟨by decide, by decide⟩,
    generate_raycast_count 1 (by decide) [sampleDefault] envC7 rcbC7 2 (by decide)⟩

/-- Witness for C10: both conjuncts applied at concrete meshes. -/
theorem generate_random_requires_faces_witness :
    BKE_mesh_sample_generate_random (BKE_mesh_sample_storage_array 1)
        [sampleDefault] (DerivedMesh.mk [] []) 0 1 = none ∧
      ∃ r, BKE_mesh_sample_generate_random (BKE_mesh_sample_storage_array 1)
        [sampleDefault] dmTri 0 1 = some r :=
  ⟨(generate_random_requires_faces _ _ _ 0 1).1 (by decide) rfl,
    (generate_random_requires_faces _ _ _ 0 1).2 (by decide)⟩
